import Mathlib

/-!
Verification of `UserStore` from `packages/rath-client/src/store/userStore.ts`:
the notebook-archive import routine `loadNotebook` and the form updater
`updateForm`, as a shallow embedding.

Modelling choices for `loadNotebook`:
- the routine is async but strictly sequential, so it is embedded as a pure
  function from an environment to the trace of observable calls it makes
  (sink calls and `notify` calls), in order;
- fallible external operations (`zipReader.getEntries()`, `entry.getData(...)`,
  `JSON.parse`, the four sink methods) are `Except String`-valued fields of
  the environment -- an `Except.error e` means the JS call threw with a value
  printing as `e`;
- the unchecked TypeScript cast of the parsed manifest is represented by
  `getItems : Json → Option (List IParseMapItem)`: `none` means the parsed
  value has no iterable `items` array, in which case the `for await` loop
  throws (caught by the top-level handler).
-/

namespace UserStoreSpec

/-- Modelled from the spec: `IKRFComponents` is imported from
`utils/download.ts`, which is outside the provided sources. Per the spec,
Kind ∈ \x7bmeta, data, collection, causal, dashboard, ...\x7d; the
constructor `other` stands for any further kind, which the routing switch
sends to the default no-op arm. -/
inductive IKRFComponents where
  | data
  | meta
  | collection
  | causal
  | dashboard
  | other
deriving DecidableEq, Repr

/-- Modelled from the spec: `IParseMapItem` is imported from
`utils/download.ts`, outside the provided sources. Per the spec a manifest
item is `\x7b name, key, type \x7d` where `name` is the archive entry
filename, `key` selects routing and `type` locates the companion meta
entry. -/
structure IParseMapItem where
  name : String
  key : IKRFComponents
  type : IKRFComponents
deriving DecidableEq, Repr

/-- Decidable equality for `Except`, used to evaluate the model on concrete
archives. -/
instance {ε α : Type} [DecidableEq ε] [DecidableEq α] : DecidableEq (Except ε α) := fun a b =>
  match a, b with
  | .ok x, .ok y =>
    if h : x = y then isTrue (by rw [h]) else isFalse (by simp [h])
  | .error x, .error y =>
    if h : x = y then isTrue (by rw [h]) else isFalse (by simp [h])
  | .ok _, .error _ => isFalse (by simp)
  | .error _, .ok _ => isFalse (by simp)

/-- An archive entry as seen by `loadNotebook`: a filename and the result of
`entry.getData(new TextWriter())`, which either yields the entry text or
throws. Reads are deterministic per entry. -/
structure Entry where
  filename : String
  getData : Except String String
deriving DecidableEq, Repr

/-- The data-source sink: `dataSourceStore.loadBackupDataStore(data, meta)`. -/
structure DataSourceStore (Json : Type) where
  loadBackupDataStore : Json → Json → Except String Unit

/-- The collection sink: `collectionStore.loadBackup(payload)`. -/
structure CollectionStore (Json : Type) where
  loadBackup : Json → Except String Unit

/-- The causal sink: `causalStore.load(payload)`. -/
structure CausalStore (Json : Type) where
  load : Json → Except String Unit

/-- The dashboard sink: `dashboardStore.loadAll(payload)`. -/
structure DashboardStore (Json : Type) where
  loadAll : Json → Except String Unit

/-- The environment of one `loadNotebook` call: the archive (result of
`zipReader.getEntries()`, which may throw), `JSON.parse`, the manifest cast,
and the four sink collaborators obtained from `getGlobalStore()`. `Json` is
the type of parsed JSON values, kept abstract. -/
structure Env (Json : Type) where
  entries : Except String (List Entry)
  parseJson : String → Except String Json
  getItems : Json → Option (List IParseMapItem)
  dataSourceStore : DataSourceStore Json
  collectionStore : CollectionStore Json
  causalStore : CausalStore Json
  dashboardStore : DashboardStore Json

/-- An observable call made during `loadNotebook`: one of the four sink
calls, or a `notify` call (title, content). -/
inductive Event (Json : Type) where
  | loadBackupDataStore (data meta : Json)
  | loadBackup (payload : Json)
  | load (payload : Json)
  | loadAll (payload : Json)
  | notify (title content : String)
deriving DecidableEq, Repr

/-- Whether an event is a sink call (anything but a `notify`). -/
def Event.isSinkCall {Json : Type} : Event Json → Bool
  | .notify _ _ => false
  | _ => true

/-- Whether an event is a `notify` call. -/
def Event.isNotify {Json : Type} : Event Json → Bool
  | .notify _ _ => true
  | _ => false

/-- Whether an event is a `dataSourceStore.loadBackupDataStore` call. -/
def Event.isDataCall {Json : Type} : Event Json → Bool
  | .loadBackupDataStore _ _ => true
  | _ => false

/-- The sink calls of a trace, in order. -/
def sinkCalls {Json : Type} (t : List (Event Json)) : List (Event Json) :=
  t.filter Event.isSinkCall

/-- The notifications of a trace, in order. -/
def notifications {Json : Type} (t : List (Event Json)) : List (Event Json) :=
  t.filter Event.isNotify

/-- The title every notification in `loadNotebook` uses. -/
def loadNotebookErrorTitle : String := "Load Notebook Error"

/-- The message of the error thrown when no archive entry is named
`parse_map.json`. -/
def cannotFindManifestMsg : String := "Cannot find parse_map.json"

/-- The message standing for the TypeError thrown by
`for await (... of manifest.items)` when `items` is not iterable. -/
def itemsNotIterableMsg : String := "manifest.items is not iterable"

/-- The body of the per-item loop of `loadNotebook` for one manifest item:
the trace of events it produces. Skips (missing entry, `meta` key, missing
companion meta) produce no events; the per-item `try`/`catch` turns any
failure into a single `notify` and the loop continues, so the result is a
plain trace. Mirrors lines 346-393 of `userStore.ts`. -/
def processItem {Json : Type} (env : Env Json) (result : List Entry)
    (items : List IParseMapItem) (it : IParseMapItem) : List (Event Json) :=
  match result.find? (fun which => which.filename == it.name) with
  | none => []
  | some entry =>
    if it.key = IKRFComponents.meta then []
    else
      match entry.getData with
      | .error e => [.notify loadNotebookErrorTitle e]
      | .ok res =>
        match it.key with
        | .data =>
          match items.find? (fun item => item.type == IKRFComponents.meta) with
          | none => []
          | some metaFile =>
            match result.find? (fun which => which.filename == metaFile.name) with
            | none => []
            | some meta =>
              match meta.getData with
              | .error e => [.notify loadNotebookErrorTitle e]
              | .ok rm =>
                match env.parseJson res with
                | .error e => [.notify loadNotebookErrorTitle e]
                | .ok dataJson =>
                  match env.parseJson rm with
                  | .error e => [.notify loadNotebookErrorTitle e]
                  | .ok metaJson =>
                    match env.dataSourceStore.loadBackupDataStore dataJson metaJson with
                    | .ok _ => [.loadBackupDataStore dataJson metaJson]
                    | .error e => [.loadBackupDataStore dataJson metaJson,
                                   .notify loadNotebookErrorTitle e]
        | .collection =>
          match env.parseJson res with
          | .error e => [.notify loadNotebookErrorTitle e]
          | .ok j =>
            match env.collectionStore.loadBackup j with
            | .ok _ => [.loadBackup j]
            | .error e => [.loadBackup j, .notify loadNotebookErrorTitle e]
        | .causal =>
          match env.parseJson res with
          | .error e => [.notify loadNotebookErrorTitle e]
          | .ok j =>
            match env.causalStore.load j with
            | .ok _ => [.load j]
            | .error e => [.load j, .notify loadNotebookErrorTitle e]
        | .dashboard =>
          match env.parseJson res with
          | .error e => [.notify loadNotebookErrorTitle e]
          | .ok j =>
            match env.dashboardStore.loadAll j with
            | .ok _ => [.loadAll j]
            | .error e => [.loadAll j, .notify loadNotebookErrorTitle e]
        | _ => []

/-- The body of the outer `try` of `loadNotebook`: either the trace of the
completed loop, or the error that escapes to the top-level `catch`. Every
error exit happens before any sink or notify call, so an error carries no
prior events. Mirrors lines 332-393 of `userStore.ts`. -/
def loadNotebookBody {Json : Type} (env : Env Json) :
    Except String (List (Event Json)) :=
  match env.entries with
  | .error e => .error e
  | .ok result =>
    match result.find? (fun entry => entry.filename == "parse_map.json") with
    | none => .error cannotFindManifestMsg
    | some manifestFile =>
      match manifestFile.getData with
      | .error e => .error e
      | .ok txt =>
        match env.parseJson txt with
        | .error e => .error e
        | .ok manifestJson =>
          match env.getItems manifestJson with
          | none => .error itemsNotIterableMsg
          | some items =>
            .ok (items.flatMap (processItem env result items))

/-- `loadNotebook`: run the body; the top-level `catch` turns an escaping
error into one `notify` call. The routine returns `void` and never throws,
so its meaning is just the trace. Mirrors lines 330-401 of `userStore.ts`. -/
def loadNotebook {Json : Type} (env : Env Json) : List (Event Json) :=
  match loadNotebookBody env with
  | .ok events => events
  | .error e => [.notify loadNotebookErrorTitle e]

/-- Whether processing one manifest item fails (throws inside the per-item
`try`): its entry text extraction throws, a companion-meta extraction
throws, a `JSON.parse` throws, or the sink call throws. Skipped items
(missing entry, `meta` key, unresolvable companion meta, unknown kind)
do not fail. -/
def itemFails {Json : Type} (env : Env Json) (result : List Entry)
    (items : List IParseMapItem) (it : IParseMapItem) : Bool :=
  match result.find? (fun which => which.filename == it.name) with
  | none => false
  | some entry =>
    if it.key = IKRFComponents.meta then false
    else
      match entry.getData with
      | .error _ => true
      | .ok res =>
        match it.key with
        | .data =>
          match items.find? (fun item => item.type == IKRFComponents.meta) with
          | none => false
          | some metaFile =>
            match result.find? (fun which => which.filename == metaFile.name) with
            | none => false
            | some meta =>
              match meta.getData with
              | .error _ => true
              | .ok rm =>
                match env.parseJson res with
                | .error _ => true
                | .ok dataJson =>
                  match env.parseJson rm with
                  | .error _ => true
                  | .ok metaJson =>
                    match env.dataSourceStore.loadBackupDataStore dataJson metaJson with
                    | .ok _ => false
                    | .error _ => true
        | .collection =>
          match env.parseJson res with
          | .error _ => true
          | .ok j =>
            match env.collectionStore.loadBackup j with
            | .ok _ => false
            | .error _ => true
        | .causal =>
          match env.parseJson res with
          | .error _ => true
          | .ok j =>
            match env.causalStore.load j with
            | .ok _ => false
            | .error _ => true
        | .dashboard =>
          match env.parseJson res with
          | .error _ => true
          | .ok j =>
            match env.dashboardStore.loadAll j with
            | .ok _ => false
            | .error _ => true
        | _ => false

/-! Data model for the `UserStore` state and `updateForm` (lines 11-96 of
`userStore.ts`). Form field names are modelled as strings because the
TypeScript `in` operator checks a string key against the object. -/

/-- The `ILoginForm` interface. -/
structure ILoginForm where
  userName : String
  password : String
  email : String
deriving DecidableEq, Repr

/-- The `ISignUpForm` interface. -/
structure ISignUpForm where
  userName : String
  password : String
  checkPassword : String
  email : String
  phone : String
  certCode : String
  invCode : String
deriving DecidableEq, Repr

/-- The `INotebook` interface. JS numbers that hold ids and sizes are
modelled as integers. -/
structure INotebook where
  id : Int
  name : String
  size : Int
  createAt : Int
  downLoadURL : String
deriving DecidableEq, Repr

/-- The `IWorkspace` interface; `notebooks` may be absent, `null`, or a
list, collapsed here to an `Option` (absent/null both mean unset for the
fields the claims touch). -/
structure IWorkspace where
  id : Int
  name : String
  notebooks : Option (List INotebook)
deriving DecidableEq, Repr

/-- The `IOrganization` interface. -/
structure IOrganization where
  name : String
  id : Int
  workspaces : Option (List IWorkspace)
deriving DecidableEq, Repr

/-- The `IUserInfo` interface. -/
structure IUserInfo where
  userName : String
  email : String
  eduEmail : String
  phone : String
  avatarURL : String
  organizations : Option (List IOrganization)
deriving DecidableEq, Repr

/-- Modelled from the spec: `IAccessPageKeys` comes from `../interfaces`,
outside the provided sources; in `updateForm` it indexes the two form
fields `login` and `signup` of the store. -/
inductive IAccessPageKeys where
  | login
  | signup
deriving DecidableEq, Repr

/-- The mutable state of a `UserStore` instance. -/
structure UserStore where
  login : ILoginForm
  signup : ISignUpForm
  info : Option IUserInfo
deriving DecidableEq, Repr

/-- The `fieldKey in this.login` check: which string keys the login form
object has. -/
def loginHasField (k : String) : Bool :=
  k == "userName" || k == "password" || k == "email"

/-- The `fieldKey in this.signup` check: which string keys the signup form
object has. -/
def signupHasField (k : String) : Bool :=
  k == "userName" || k == "password" || k == "checkPassword" || k == "email"
    || k == "phone" || k == "certCode" || k == "invCode"

/-- The assignment `this.login[fieldKey] = value` (for a key the form has;
other keys leave it unchanged, matching that the guard never lets them
reach the assignment). -/
def setLoginField (f : ILoginForm) (k v : String) : ILoginForm :=
  if k == "userName" then { f with userName := v }
  else if k == "password" then { f with password := v }
  else if k == "email" then { f with email := v }
  else f

/-- The assignment `this.signup[fieldKey] = value`. -/
def setSignupField (f : ISignUpForm) (k v : String) : ISignUpForm :=
  if k == "userName" then { f with userName := v }
  else if k == "password" then { f with password := v }
  else if k == "checkPassword" then { f with checkPassword := v }
  else if k == "email" then { f with email := v }
  else if k == "phone" then { f with phone := v }
  else if k == "certCode" then { f with certCode := v }
  else if k == "invCode" then { f with invCode := v }
  else f

/-- `updateForm(formKey, fieldKey, value)`: if `fieldKey in this[formKey]`,
assign `this[formKey][fieldKey] = value`; otherwise do nothing. Mirrors
lines 91-96 of `userStore.ts`. -/
def updateForm (s : UserStore) (formKey : IAccessPageKeys)
    (fieldKey value : String) : UserStore :=
  match formKey with
  | .login =>
    if loginHasField fieldKey then
      { s with login := setLoginField s.login fieldKey value }
    else s
  | .signup =>
    if signupHasField fieldKey then
      { s with signup := setSignupField s.signup fieldKey value }
    else s

/-- Observation: read a string key off the login form (`none` when the
object has no such key). -/
def getLoginField (f : ILoginForm) (k : String) : Option String :=
  if k == "userName" then some f.userName
  else if k == "password" then some f.password
  else if k == "email" then some f.email
  else none

/-- Observation: read a string key off the signup form. -/
def getSignupField (f : ISignUpForm) (k : String) : Option String :=
  if k == "userName" then some f.userName
  else if k == "password" then some f.password
  else if k == "checkPassword" then some f.checkPassword
  else if k == "email" then some f.email
  else if k == "phone" then some f.phone
  else if k == "certCode" then some f.certCode
  else if k == "invCode" then some f.invCode
  else none

/-- Observation: read `this[formKey][fieldKey]`. -/
def getFormField (s : UserStore) (fk : IAccessPageKeys) (k : String) :
    Option String :=
  match fk with
  | .login => getLoginField s.login k
  | .signup => getSignupField s.signup k

/-- Whether `fieldKey in this[formKey]` holds. -/
def formHasField (fk : IAccessPageKeys) (k : String) : Bool :=
  match fk with
  | .login => loginHasField k
  | .signup => signupHasField k

/-! Helper lemmas shared by the claim theorems. -/

/-- Once the archive opens, the manifest entry resolves, its text extracts,
it parses, and its `items` array is iterable, `loadNotebook` is the
concatenation, in manifest order, of the per-item traces. -/
theorem loadNotebook_eq_flatMap {Json : Type} (env : Env Json)
    (result : List Entry) (mf : Entry) (txt : String) (mJson : Json)
    (items : List IParseMapItem)
    (h1 : env.entries = .ok result)
    (h2 : result.find? (fun entry => entry.filename == "parse_map.json") = some mf)
    (h3 : mf.getData = .ok txt)
    (h4 : env.parseJson txt = .ok mJson)
    (h5 : env.getItems mJson = some items) :
    loadNotebook env = items.flatMap (processItem env result items) := by
  simp only [loadNotebook, loadNotebookBody, h1, h2, h3, h4, h5]

/-- Filtering distributes over `flatMap`. -/
theorem filter_flatMap_comm {α β : Type} (l : List α) (f : α → List β)
    (p : β → Bool) :
    (l.flatMap f).filter p = l.flatMap (fun a => (f a).filter p) := by
  induction l with
  | nil => rfl
  | cons a l ih => simp [List.flatMap_cons, List.filter_append, ih]

/-! Concrete archives and environments, used to evaluate the theorems on
closed inputs. `Json` is instantiated with `String` and `JSON.parse` with a
function that succeeds on every payload. -/

/-- A well-formed sample archive: manifest plus a data entry, its meta
companion, and a collection entry (the layout of spec §8). -/
def sampleEntries : List Entry :=
  [⟨"parse_map.json", .ok "MANIFEST"⟩,
   ⟨"a.json", .ok "A"⟩,
   ⟨"m.json", .ok "M"⟩,
   ⟨"c.json", .ok "C"⟩]

/-- The manifest items of the sample archive. -/
def sampleItems : List IParseMapItem :=
  [⟨"a.json", .data, .data⟩,
   ⟨"m.json", .meta, .meta⟩,
   ⟨"c.json", .collection, .collection⟩]

/-- Sinks that accept every payload. -/
def okSinks : DataSourceStore String × CollectionStore String ×
    CausalStore String × DashboardStore String :=
  (⟨fun _ _ => .ok ()⟩, ⟨fun _ => .ok ()⟩, ⟨fun _ => .ok ()⟩, ⟨fun _ => .ok ()⟩)

/-- The environment of a clean import of the sample archive. -/
def sampleEnv : Env String where
  entries := .ok sampleEntries
  parseJson := fun s => .ok s
  getItems := fun s => if s == "MANIFEST" then some sampleItems else none
  dataSourceStore := okSinks.1
  collectionStore := okSinks.2.1
  causalStore := okSinks.2.2.1
  dashboardStore := okSinks.2.2.2

/-- An archive with no entry named `parse_map.json`. -/
def noManifestEntries : List Entry := [⟨"foo.json", .ok "x"⟩]

/-- The environment of an import of an archive lacking `parse_map.json`. -/
def noManifestEnv : Env String where
  entries := .ok noManifestEntries
  parseJson := fun s => .ok s
  getItems := fun _ => none
  dataSourceStore := okSinks.1
  collectionStore := okSinks.2.1
  causalStore := okSinks.2.2.1
  dashboardStore := okSinks.2.2.2

/-- An environment whose manifest parses but exposes no iterable `items`. -/
def noItemsEnv : Env String where
  entries := .ok sampleEntries
  parseJson := fun s => .ok s
  getItems := fun _ => none
  dataSourceStore := okSinks.1
  collectionStore := okSinks.2.1
  causalStore := okSinks.2.2.1
  dashboardStore := okSinks.2.2.2

/-! The claims. -/

/-- C2: if the zip archive has no entry whose filename is exactly
`parse_map.json`, the whole import aborts: the trace is a single error
notification, so zero sink calls (none of `loadBackupDataStore`,
`loadBackup`, `load`, `loadAll`) and exactly one notification. -/
theorem C2_missing_manifest_aborts {Json : Type} (env : Env Json)
    (result : List Entry)
    (h1 : env.entries = .ok result)
    (h2 : result.find? (fun entry => entry.filename == "parse_map.json") = none) :
    loadNotebook env = [Event.notify loadNotebookErrorTitle cannotFindManifestMsg]
    ∧ sinkCalls (loadNotebook env) = []
    ∧ (notifications (loadNotebook env)).length = 1 := by
  have h : loadNotebook env
      = [Event.notify loadNotebookErrorTitle cannotFindManifestMsg] := by
    simp only [loadNotebook, loadNotebookBody, h1, h2]
  exact ⟨h, by simp [h, sinkCalls, Event.isSinkCall],
         by simp [h, notifications, Event.isNotify]⟩

/-- Witness for C2 on a concrete archive with a single unrelated entry. -/
theorem C2_missing_manifest_aborts_witness :
    loadNotebook noManifestEnv
      = [Event.notify loadNotebookErrorTitle cannotFindManifestMsg]
    ∧ sinkCalls (loadNotebook noManifestEnv) = []
    ∧ (notifications (loadNotebook noManifestEnv)).length = 1 :=
  C2_missing_manifest_aborts noManifestEnv noManifestEntries rfl rfl

/-- C7: `loadNotebook` never propagates an error to its caller: for every
environment (unopenable archives and missing manifests included) it yields
a plain trace; when the body fails, the failure is signalled only through a
single `notify` call and no sink call is made. -/
theorem C7_no_error_escapes {Json : Type} (env : Env Json) :
    (∃ events, loadNotebookBody env = .ok events ∧ loadNotebook env = events)
    ∨ (∃ msg, loadNotebookBody env = .error msg
        ∧ loadNotebook env = [Event.notify loadNotebookErrorTitle msg]
        ∧ sinkCalls (loadNotebook env) = []) := by
  rcases h : loadNotebookBody env with msg | events
  · exact Or.inr ⟨msg, rfl, by simp [loadNotebook, h],
      by simp [loadNotebook, h, sinkCalls, Event.isSinkCall]⟩
  · exact Or.inl ⟨events, rfl, by simp [loadNotebook, h]⟩

/-- C9: manifest present and parsed, but the parsed value has no iterable
`items` array: top-level failure, zero sink calls and exactly one error
notification, of the same shape (single `notify` with the same title) as
the unparseable-manifest case. -/
theorem C9_items_not_iterable {Json : Type} (env : Env Json)
    (result : List Entry) (mf : Entry) (txt : String) (mJson : Json)
    (h1 : env.entries = .ok result)
    (h2 : result.find? (fun entry => entry.filename == "parse_map.json") = some mf)
    (h3 : mf.getData = .ok txt)
    (h4 : env.parseJson txt = .ok mJson)
    (h5 : env.getItems mJson = none) :
    loadNotebook env = [Event.notify loadNotebookErrorTitle itemsNotIterableMsg]
    ∧ sinkCalls (loadNotebook env) = []
    ∧ (notifications (loadNotebook env)).length = 1 := by
  have h : loadNotebook env
      = [Event.notify loadNotebookErrorTitle itemsNotIterableMsg] := by
    simp only [loadNotebook, loadNotebookBody, h1, h2, h3, h4, h5]
  exact ⟨h, by simp [h, sinkCalls, Event.isSinkCall],
         by simp [h, notifications, Event.isNotify]⟩

/-- Witness for C9 on a concrete archive whose manifest JSON has no
iterable `items`. -/
theorem C9_items_not_iterable_witness :
    loadNotebook noItemsEnv
      = [Event.notify loadNotebookErrorTitle itemsNotIterableMsg]
    ∧ sinkCalls (loadNotebook noItemsEnv) = []
    ∧ (notifications (loadNotebook noItemsEnv)).length = 1 :=
  C9_items_not_iterable noItemsEnv sampleEntries
    ⟨"parse_map.json", .ok "MANIFEST"⟩ "MANIFEST" "MANIFEST" rfl rfl rfl rfl rfl

/-- C1: a `data`-key manifest item whose own entry resolves and extracts,
and whose companion meta (the first manifest item, in manifest order, with
`type` equal to `meta`) resolves, extracts and parses, produces exactly one
`dataSourceStore.loadBackupDataStore` call, passing the item payload and
the meta payload parsed as JSON. The companion lookup `metaFile` is fixed
by `items` alone, so the same first match serves every `data` item. -/
theorem C1_data_routed_once {Json : Type} (env : Env Json)
    (result : List Entry) (mf : Entry) (txt : String) (mJson : Json)
    (items : List IParseMapItem) (it : IParseMapItem) (entry : Entry)
    (res : String) (metaFile : IParseMapItem) (metaEntry : Entry)
    (rm : String) (dataJson metaJson : Json)
    (h1 : env.entries = .ok result)
    (h2 : result.find? (fun entry => entry.filename == "parse_map.json") = some mf)
    (h3 : mf.getData = .ok txt)
    (h4 : env.parseJson txt = .ok mJson)
    (h5 : env.getItems mJson = some items)
    (_hit : it ∈ items)
    (hkey : it.key = IKRFComponents.data)
    (hentry : result.find? (fun which => which.filename == it.name) = some entry)
    (hres : entry.getData = .ok res)
    (hmetaFile : items.find? (fun item => item.type == IKRFComponents.meta)
      = some metaFile)
    (hmetaEntry : result.find? (fun which => which.filename == metaFile.name)
      = some metaEntry)
    (hrm : metaEntry.getData = .ok rm)
    (hdj : env.parseJson res = .ok dataJson)
    (hmj : env.parseJson rm = .ok metaJson) :
    (processItem env result items it).filter Event.isDataCall
      = [Event.loadBackupDataStore dataJson metaJson]
    ∧ loadNotebook env = items.flatMap (processItem env result items) := by
  refine ⟨?_, loadNotebook_eq_flatMap env result mf txt mJson items h1 h2 h3 h4 h5⟩
  simp only [processItem, hentry, hkey, hres, hmetaFile, hmetaEntry, hrm, hdj,
    hmj, reduceIte]
  rcases hsink : env.dataSourceStore.loadBackupDataStore dataJson metaJson with e | u <;>
    simp [hsink, Event.isDataCall]

/-- Witness for C1 on the sample archive: the `data` item `a.json` is
routed once with payloads `A` and `M`. -/
theorem C1_data_routed_once_witness :
    (processItem sampleEnv sampleEntries sampleItems
        ⟨"a.json", .data, .data⟩).filter Event.isDataCall
      = [Event.loadBackupDataStore "A" "M"]
    ∧ loadNotebook sampleEnv
      = sampleItems.flatMap (processItem sampleEnv sampleEntries sampleItems) :=
  C1_data_routed_once sampleEnv sampleEntries
    ⟨"parse_map.json", .ok "MANIFEST"⟩ "MANIFEST" "MANIFEST" sampleItems
    ⟨"a.json", .data, .data⟩ ⟨"a.json", .ok "A"⟩ "A"
    ⟨"m.json", .meta, .meta⟩ ⟨"m.json", .ok "M"⟩ "M" "A" "M"
    rfl rfl rfl rfl rfl (by simp [sampleItems]) rfl rfl rfl rfl rfl rfl rfl rfl

/-- C3: a manifest item whose `key` is `meta`, or whose named archive entry
does not exist, is skipped with no sink call and no notification, and the
remaining items are still processed (the trace stays the concatenation over
all items). -/
theorem C3_meta_or_missing_skipped {Json : Type} (env : Env Json)
    (result : List Entry) (mf : Entry) (txt : String) (mJson : Json)
    (items : List IParseMapItem) (it : IParseMapItem)
    (h1 : env.entries = .ok result)
    (h2 : result.find? (fun entry => entry.filename == "parse_map.json") = some mf)
    (h3 : mf.getData = .ok txt)
    (h4 : env.parseJson txt = .ok mJson)
    (h5 : env.getItems mJson = some items)
    (_hit : it ∈ items)
    (hskip : it.key = IKRFComponents.meta
      ∨ result.find? (fun which => which.filename == it.name) = none) :
    processItem env result items it = []
    ∧ loadNotebook env = items.flatMap (processItem env result items) := by
  refine ⟨?_, loadNotebook_eq_flatMap env result mf txt mJson items h1 h2 h3 h4 h5⟩
  rcases hskip with hk | hn
  · rcases hf : result.find? (fun which => which.filename == it.name) with _ | entry
    · simp [processItem, hf]
    · simp [processItem, hf, hk]
  · simp [processItem, hn]

/-- Witness for C3 on the sample archive: the `meta` item `m.json` yields
no events and the full trace is still the concatenation over all items. -/
theorem C3_meta_or_missing_skipped_witness :
    processItem sampleEnv sampleEntries sampleItems ⟨"m.json", .meta, .meta⟩ = []
    ∧ loadNotebook sampleEnv
      = sampleItems.flatMap (processItem sampleEnv sampleEntries sampleItems) :=
  C3_meta_or_missing_skipped sampleEnv sampleEntries
    ⟨"parse_map.json", .ok "MANIFEST"⟩ "MANIFEST" "MANIFEST" sampleItems
    ⟨"m.json", .meta, .meta⟩ rfl rfl rfl rfl rfl (by simp [sampleItems])
    (Or.inl rfl)

/-- C4: a `data`-key item whose own entry resolves and extracts, but for
which either no manifest item has `type` equal to `meta`, or the named meta
archive entry is not found, is silently skipped: no sink call, no
notification, and the remaining items are still processed. -/
theorem C4_data_without_meta_skipped {Json : Type} (env : Env Json)
    (result : List Entry) (mf : Entry) (txt : String) (mJson : Json)
    (items : List IParseMapItem) (it : IParseMapItem) (entry : Entry)
    (res : String)
    (h1 : env.entries = .ok result)
    (h2 : result.find? (fun entry => entry.filename == "parse_map.json") = some mf)
    (h3 : mf.getData = .ok txt)
    (h4 : env.parseJson txt = .ok mJson)
    (h5 : env.getItems mJson = some items)
    (_hit : it ∈ items)
    (hkey : it.key = IKRFComponents.data)
    (hentry : result.find? (fun which => which.filename == it.name) = some entry)
    (hres : entry.getData = .ok res)
    (hmeta : items.find? (fun item => item.type == IKRFComponents.meta) = none
      ∨ ∃ metaFile,
          items.find? (fun item => item.type == IKRFComponents.meta) = some metaFile
          ∧ result.find? (fun which => which.filename == metaFile.name) = none) :
    processItem env result items it = []
    ∧ loadNotebook env = items.flatMap (processItem env result items) := by
  refine ⟨?_, loadNotebook_eq_flatMap env result mf txt mJson items h1 h2 h3 h4 h5⟩
  rcases hmeta with hm | ⟨metaFile, hm, hme⟩
  · simp [processItem, hentry, hkey, hres, hm]
  · simp [processItem, hentry, hkey, hres, hm, hme]

/-- The manifest items of an archive whose manifest lists no `meta` item. -/
def noMetaItems : List IParseMapItem :=
  [⟨"a.json", .data, .data⟩, ⟨"c.json", .collection, .collection⟩]

/-- The environment of an import whose manifest lists a `data` item but no
`meta` item. -/
def noMetaEnv : Env String where
  entries := .ok sampleEntries
  parseJson := fun s => .ok s
  getItems := fun s => if s == "MANIFEST" then some noMetaItems else none
  dataSourceStore := okSinks.1
  collectionStore := okSinks.2.1
  causalStore := okSinks.2.2.1
  dashboardStore := okSinks.2.2.2

/-- Witness for C4: data item with no `meta`-type manifest item is skipped
while the rest of the manifest is still processed. -/
theorem C4_data_without_meta_skipped_witness :
    processItem noMetaEnv sampleEntries noMetaItems ⟨"a.json", .data, .data⟩ = []
    ∧ loadNotebook noMetaEnv
      = noMetaItems.flatMap (processItem noMetaEnv sampleEntries noMetaItems) :=
  C4_data_without_meta_skipped noMetaEnv sampleEntries
    ⟨"parse_map.json", .ok "MANIFEST"⟩ "MANIFEST" "MANIFEST" noMetaItems
    ⟨"a.json", .data, .data⟩ ⟨"a.json", .ok "A"⟩ "A"
    rfl rfl rfl rfl rfl (by simp [noMetaItems]) rfl rfl rfl (Or.inl rfl)

/-- C5: per-item failure isolation. Every manifest item's processing is a
plain trace (its failures are caught inside the loop), it carries exactly
one error notification when the item fails (extraction, companion-meta
extraction, JSON parse, or the sink call throwing) and none otherwise, and
the whole run still covers every item in order: one failing item never
aborts the rest. -/
theorem C5_per_item_isolation {Json : Type} (env : Env Json)
    (result : List Entry) (mf : Entry) (txt : String) (mJson : Json)
    (items : List IParseMapItem)
    (h1 : env.entries = .ok result)
    (h2 : result.find? (fun entry => entry.filename == "parse_map.json") = some mf)
    (h3 : mf.getData = .ok txt)
    (h4 : env.parseJson txt = .ok mJson)
    (h5 : env.getItems mJson = some items) :
    (∀ it ∈ items,
      (notifications (processItem env result items it)).length
        = (if itemFails env result items it then 1 else 0))
    ∧ loadNotebook env = items.flatMap (processItem env result items) := by
  refine ⟨fun it _ => ?_,
    loadNotebook_eq_flatMap env result mf txt mJson items h1 h2 h3 h4 h5⟩
  unfold processItem itemFails notifications
  repeat' split
  all_goals simp_all [Event.isNotify]

/-- The entries of an archive holding one entry with malformed JSON. -/
def failEntries : List Entry :=
  [⟨"parse_map.json", .ok "MANIFEST"⟩, ⟨"bad.json", .ok "BAD"⟩,
   ⟨"c.json", .ok "C"⟩]

/-- The manifest items of the malformed-JSON archive. -/
def failItems : List IParseMapItem :=
  [⟨"bad.json", .collection, .collection⟩,
   ⟨"c.json", .collection, .collection⟩]

/-- The environment of an import where `JSON.parse` throws on the payload
`BAD`. -/
def failEnv : Env String where
  entries := .ok failEntries
  parseJson := fun s =>
    if s == "BAD" then .error "SyntaxError: Unexpected token" else .ok s
  getItems := fun s => if s == "MANIFEST" then some failItems else none
  dataSourceStore := okSinks.1
  collectionStore := okSinks.2.1
  causalStore := okSinks.2.2.1
  dashboardStore := okSinks.2.2.2

/-- Witness for C5: the malformed item fails, its sub-trace carries exactly
one notification, and the full trace still concatenates every item. -/
theorem C5_per_item_isolation_witness :
    itemFails failEnv failEntries failItems
      ⟨"bad.json", .collection, .collection⟩ = true
    ∧ (notifications (processItem failEnv failEntries failItems
        ⟨"bad.json", .collection, .collection⟩)).length
      = (if itemFails failEnv failEntries failItems
          ⟨"bad.json", .collection, .collection⟩ then 1 else 0)
    ∧ loadNotebook failEnv
      = failItems.flatMap (processItem failEnv failEntries failItems) := by
  have h := C5_per_item_isolation failEnv failEntries
    ⟨"parse_map.json", .ok "MANIFEST"⟩ "MANIFEST" "MANIFEST" failItems
    rfl rfl rfl rfl rfl
  exact ⟨rfl, h.1 ⟨"bad.json", .collection, .collection⟩ (by simp [failItems]),
    h.2⟩

/-- C6: once the loop is reached, the trace of `loadNotebook` is the
concatenation of the per-item traces in manifest-array order (strictly
sequential processing), hence the sink calls occur in manifest-array order;
`meta`-kind items contribute nothing. -/
theorem C6_manifest_order {Json : Type} (env : Env Json)
    (result : List Entry) (mf : Entry) (txt : String) (mJson : Json)
    (items : List IParseMapItem)
    (h1 : env.entries = .ok result)
    (h2 : result.find? (fun entry => entry.filename == "parse_map.json") = some mf)
    (h3 : mf.getData = .ok txt)
    (h4 : env.parseJson txt = .ok mJson)
    (h5 : env.getItems mJson = some items) :
    loadNotebook env = items.flatMap (processItem env result items)
    ∧ sinkCalls (loadNotebook env)
      = items.flatMap (fun it => sinkCalls (processItem env result items it))
    ∧ ∀ it ∈ items, it.key = IKRFComponents.meta →
        processItem env result items it = [] := by
  have hl := loadNotebook_eq_flatMap env result mf txt mJson items h1 h2 h3 h4 h5
  refine ⟨hl, ?_, fun it _ hk => ?_⟩
  · simp only [sinkCalls, hl]
    exact filter_flatMap_comm items (processItem env result items)
      Event.isSinkCall
  · rcases hf : result.find? (fun which => which.filename == it.name) with _ | entry
    · simp [processItem, hf]
    · simp [processItem, hf, hk]

/-- Witness for C6 on the sample archive. -/
theorem C6_manifest_order_witness :
    loadNotebook sampleEnv
      = sampleItems.flatMap (processItem sampleEnv sampleEntries sampleItems)
    ∧ sinkCalls (loadNotebook sampleEnv)
      = sampleItems.flatMap
          (fun it => sinkCalls (processItem sampleEnv sampleEntries sampleItems it))
    ∧ processItem sampleEnv sampleEntries sampleItems ⟨"m.json", .meta, .meta⟩ = [] := by
  have h := C6_manifest_order sampleEnv sampleEntries
    ⟨"parse_map.json", .ok "MANIFEST"⟩ "MANIFEST" "MANIFEST" sampleItems
    rfl rfl rfl rfl rfl
  exact ⟨h.1, h.2.1, h.2.2 ⟨"m.json", .meta, .meta⟩ (by simp [sampleItems]) rfl⟩

/-- Writing an existing login-form key then reading it back yields the
written value. -/
theorem setLoginField_same (f : ILoginForm) (k v : String)
    (h : loginHasField k = true) :
    getLoginField (setLoginField f k v) k = some v := by
  unfold loginHasField at h
  unfold setLoginField getLoginField
  split_ifs <;> simp_all

/-- The `userName` field after a keyed write. -/
theorem setSignupField_userName (f : ISignUpForm) (k v : String) :
    (setSignupField f k v).userName
      = if k == "userName" then v else f.userName := by
  unfold setSignupField
  split_ifs <;> simp_all

/-- The `password` field after a keyed write. -/
theorem setSignupField_password (f : ISignUpForm) (k v : String) :
    (setSignupField f k v).password
      = if k == "password" then v else f.password := by
  unfold setSignupField
  split_ifs <;> simp_all

/-- The `checkPassword` field after a keyed write. -/
theorem setSignupField_checkPassword (f : ISignUpForm) (k v : String) :
    (setSignupField f k v).checkPassword
      = if k == "checkPassword" then v else f.checkPassword := by
  unfold setSignupField
  split_ifs <;> simp_all

/-- The `email` field after a keyed write. -/
theorem setSignupField_email (f : ISignUpForm) (k v : String) :
    (setSignupField f k v).email
      = if k == "email" then v else f.email := by
  unfold setSignupField
  split_ifs <;> simp_all

/-- The `phone` field after a keyed write. -/
theorem setSignupField_phone (f : ISignUpForm) (k v : String) :
    (setSignupField f k v).phone
      = if k == "phone" then v else f.phone := by
  unfold setSignupField
  split_ifs <;> simp_all

/-- The `certCode` field after a keyed write. -/
theorem setSignupField_certCode (f : ISignUpForm) (k v : String) :
    (setSignupField f k v).certCode
      = if k == "certCode" then v else f.certCode := by
  unfold setSignupField
  split_ifs <;> simp_all

/-- The `invCode` field after a keyed write. -/
theorem setSignupField_invCode (f : ISignUpForm) (k v : String) :
    (setSignupField f k v).invCode
      = if k == "invCode" then v else f.invCode := by
  unfold setSignupField
  split_ifs <;> simp_all

/-- Writing an existing signup-form key then reading it back yields the
written value. -/
theorem setSignupField_same (f : ISignUpForm) (k v : String)
    (h : signupHasField k = true) :
    getSignupField (setSignupField f k v) k = some v := by
  unfold signupHasField at h
  unfold getSignupField
  simp only [setSignupField_userName, setSignupField_password,
    setSignupField_checkPassword, setSignupField_email, setSignupField_phone,
    setSignupField_certCode, setSignupField_invCode]
  split_ifs <;> simp_all

/-- Writing one login-form key leaves every other key unchanged. -/
theorem setLoginField_frame (f : ILoginForm) (k v kp : String) (h : kp ≠ k) :
    getLoginField (setLoginField f k v) kp = getLoginField f kp := by
  unfold setLoginField getLoginField
  split_ifs <;> simp_all

/-- Writing one signup-form key leaves every other key unchanged. -/
theorem setSignupField_frame (f : ISignUpForm) (k v kp : String) (h : kp ≠ k) :
    getSignupField (setSignupField f k v) kp = getSignupField f kp := by
  unfold getSignupField
  simp only [setSignupField_userName, setSignupField_password,
    setSignupField_checkPassword, setSignupField_email, setSignupField_phone,
    setSignupField_certCode, setSignupField_invCode]
  split_ifs <;> simp_all

/-- C10: `updateForm(formKey, fieldKey, value)` sets
`this[formKey][fieldKey]` to `value` when `fieldKey` is a property of that
form object, leaves the store entirely unchanged when it is not, and in
both cases every other field of both forms and the `info` field are
unchanged. -/
theorem C10_updateForm_frame (s : UserStore) (fk : IAccessPageKeys)
    (k v : String) :
    (updateForm s fk k v).info = s.info
    ∧ (formHasField fk k = true →
        getFormField (updateForm s fk k v) fk k = some v)
    ∧ (formHasField fk k = false → updateForm s fk k v = s)
    ∧ ∀ fk' k', fk' ≠ fk ∨ k' ≠ k →
        getFormField (updateForm s fk k v) fk' k' = getFormField s fk' k' := by
  refine ⟨?_, ?_, ?_, ?_⟩
  · cases fk <;> simp only [updateForm] <;> split <;> rfl
  · intro h
    cases fk with
    | login =>
      simp only [formHasField] at h
      simp only [updateForm, getFormField, h, if_true]
      exact setLoginField_same s.login k v h
    | signup =>
      simp only [formHasField] at h
      simp only [updateForm, getFormField, h, if_true]
      exact setSignupField_same s.signup k v h
  · intro h
    cases fk <;> simp only [formHasField] at h <;> simp [updateForm, h]
  · intro fk' k' hne
    cases fk with
    | login =>
      cases fk' with
      | login =>
        have hk : k' ≠ k := by
          rcases hne with h | h
          · exact absurd rfl h
          · exact h
        simp only [updateForm, getFormField]
        split_ifs with h
        · exact setLoginField_frame s.login k v k' hk
        · rfl
      | signup =>
        simp only [updateForm, getFormField]
        split_ifs with h <;> rfl
    | signup =>
      cases fk' with
      | login =>
        simp only [updateForm, getFormField]
        split_ifs with h <;> rfl
      | signup =>
        have hk : k' ≠ k := by
          rcases hne with h | h
          · exact absurd rfl h
          · exact h
        simp only [updateForm, getFormField]
        split_ifs with h
        · exact setSignupField_frame s.signup k v k' hk
        · rfl

/-- A concrete store with empty forms. -/
def sampleStore : UserStore where
  login := ⟨"", "", ""⟩
  signup := ⟨"", "", "", "", "", "", ""⟩
  info := none

/-- Witness for C10: writing `password` on the login form of a concrete
store stores the value, an unknown key changes nothing, and the signup form
and `info` are untouched. -/
theorem C10_updateForm_frame_witness :
    getFormField (updateForm sampleStore .login "password" "pw")
        .login "password" = some "pw"
    ∧ updateForm sampleStore .login "unknownKey" "x" = sampleStore
    ∧ getFormField (updateForm sampleStore .login "password" "pw")
        .signup "password" = getFormField sampleStore .signup "password"
    ∧ (updateForm sampleStore .login "password" "pw").info = sampleStore.info := by
  have h := C10_updateForm_frame sampleStore .login "password" "pw"
  have h2 := C10_updateForm_frame sampleStore .login "unknownKey" "x"
  exact ⟨h.2.1 rfl, h2.2.2.1 rfl,
    h.2.2.2 .signup "password" (Or.inl (by decide)), h.1⟩

end UserStoreSpec
